import Mathlib

/-!
Verification of the `concurrency-limiter` library (FIFO gate in package
`limiter`, priority gate in package `priority`).

The Go source is shallowly embedded below.  Go machine integers never get
near overflow here (counts and limits), so `int` is embedded as `Int`.
Channels are identified by `Nat` ids; the channel *operations* each gate
function performs (unbuffered send, close) are emitted as an explicit list
so that Go's channel semantics (send blocks without a ready receiver,
send/close on a closed channel panics) can be evaluated separately by
`runChan`.
-/

namespace ConcLim

/-- A channel operation performed by gate code on a `done` channel
(identified by its `Nat` id).  `Finish` performs `w.done <- struct{}{}`
followed by `close(w.done)`; `removeWaiter` performs only `close`. -/
inductive ChOp where
  | send (ch : Nat)
  | close (ch : Nat)
deriving DecidableEq, Repr

/-- Terminal status of running a sequence of channel operations. -/
inductive ChTerm where
  | ok
  | blocked
  | panicked
deriving DecidableEq, Repr

/-- Go semantics of the operations in `ops` that touch the unbuffered
channel `ch`, starting from channel state (`closed`, `recv` = a receiver is
currently blocked on the channel): a send on a closed channel panics, a
send with no ready receiver blocks, a successful send consumes the
receiver, and closing a closed channel panics.  Operations on other
channels are skipped. -/
def runChan (ch : Nat) : Bool → Bool → List ChOp → ChTerm
  | _, _, [] => ChTerm.ok
  | closed, recv, ChOp.send c :: rest =>
      if c = ch then
        if closed then ChTerm.panicked
        else if recv then runChan ch closed false rest
        else ChTerm.blocked
      else runChan ch closed recv rest
  | closed, recv, ChOp.close c :: rest =>
      if c = ch then
        if closed then ChTerm.panicked
        else runChan ch true recv rest
      else runChan ch closed recv rest

/-! ## FIFO gate (package `limiter`, file `src/unnamed/part_000`)

`waitList` is `container/list` holding one channel id per waiter, front
first (`PushBack` appends at the back). -/

/-- State of `Limiter` (part_000 lines 25-31): `count`, `limit`, the FIFO
`waitList` of waiter channel ids, and the optional `timeout`. -/
structure Limiter where
  count : Int
  limit : Int
  waitList : List Nat
  timeout : Option Int
deriving DecidableEq, Repr

/-- Constructor `New` (part_000 lines 37-46): stores `limit` and applies the options;
`WithTimeout` is modelled as the resolved `timeout` field.  There is no
validation of `limit`. -/
def New (limit : Int) (timeout : Option Int) : Limiter :=
  { count := 0, limit := limit, waitList := [], timeout := timeout }

/-- Embeds `Limiter.proceed` (part_000 lines 97-111): fast path increments
`count` when `count < limit`; otherwise a fresh waiter channel (`fresh`)
is appended to the back of `waitList`. -/
def Limiter.proceed (l : Limiter) (fresh : Nat) : (Bool × Option Nat) × Limiter :=
  if l.count < l.limit then
    ((true, none), { l with count := l.count + 1 })
  else
    ((false, some fresh), { l with waitList := l.waitList ++ [fresh] })

/-- Embeds `Limiter.removeWaiter` (part_000 lines 80-92): scans `waitList` for the
waiter holding `ch`; if found it closes the channel, removes the entry and
increments `count`; if not found nothing happens. -/
def Limiter.removeWaiter (l : Limiter) (ch : Nat) : Limiter × List ChOp :=
  if ch ∈ l.waitList then
    ({ l with waitList := l.waitList.erase ch, count := l.count + 1 }, [ChOp.close ch])
  else
    (l, [])

/-- Embeds `Limiter.Finish` (part_000 lines 115-126): decrements `count`
unconditionally; then, if the wait list is non-empty, removes the front
waiter and performs `w.done <- struct{}{}` followed by `close(w.done)`.
The popped waiter's channel id and the channel operations are returned. -/
def Limiter.Finish (l : Limiter) : Limiter × Option Nat × List ChOp :=
  match l.waitList with
  | [] => ({ l with count := l.count - 1 }, none, [])
  | ch :: rest =>
      ({ l with count := l.count - 1, waitList := rest },
       some ch, [ChOp.send ch, ChOp.close ch])

/-- Which of the armed wakeup sources fires for a queued waiter. -/
inductive WaitEv where
  | granted
  | ctxDone
  | timedOut
deriving DecidableEq, Repr

/-- The suspension part of `Limiter.Wait` (part_000 lines 64-77) for a
waiter queued on channel `ch`: with a timeout configured, the select is
over {done, timer, ctx}, and only the timer branch calls `removeWaiter` —
the `ctx.Done()` branch returns with no action (line 69-70); without a
timeout, the select is over {done, ctx} and the ctx branch calls
`removeWaiter` (no timer is armed, so `timedOut` cannot fire there). -/
def Limiter.waitResolve (l : Limiter) (ch : Nat) (ev : WaitEv) : Limiter × List ChOp :=
  match l.timeout, ev with
  | some _, WaitEv.granted => (l, [])
  | some _, WaitEv.timedOut => l.removeWaiter ch
  | some _, WaitEv.ctxDone => (l, [])
  | none, WaitEv.granted => (l, [])
  | none, WaitEv.ctxDone => l.removeWaiter ch
  | none, WaitEv.timedOut => (l, [])

/-! ## Priority gate (package `priority`, file
`src/priority/priorityRateLimiter.go`)

The gate's wait structure is `queue.PriorityQueue` from the repository's
`queue` package, which is not under `src/`; only the spec describes it.
It is modelled below as a bag (`List Item`) whose `popBest` removes the
highest-ordered entry under the spec's ordering key. -/

/-- Priority constant `Low = 1` (priorityRateLimiter.go line 17). -/
def Low : Int := 1

/-- Priority constant `Medium = 2` (line 18). -/
def Medium : Int := 2

/-- Priority constant `MediumHigh = 3` (line 19). -/
def MediumHigh : Int := 3

/-- Priority constant `High = 4` (line 20). -/
def High : Int := 4

/-- Embeds `queue.Item`: the source stores `Priority int` and the `Done` channel
(lines 197-201).  Modelled from the spec: the queue additionally keys each
entry with a monotonically increasing arrival `sequence`, immutable, used
only as a tie-break (spec section 3). -/
structure Item where
  priority : Int
  seq : Nat
  ch : Nat
deriving DecidableEq, Repr

/-- Modelled from the spec: the Priority Wait Queue's ordering key —
"higher `priority` first; ties broken by lower `sequence` first (earlier
arrival wins)" (spec section 4.2).  `better a b` holds when `a` is ordered
strictly ahead of `b`. -/
def better (a b : Item) : Bool :=
  if b.priority < a.priority then true
  else if a.priority = b.priority ∧ a.seq < b.seq then true
  else false

/-- Selects the `better`-maximal entry among `x :: xs`, returning it and
the remaining entries in their original relative order. -/
def selBest (x : Item) : List Item → Item × List Item
  | [] => (x, [])
  | y :: ys =>
      if better y x then
        let p := selBest y ys
        (p.1, x :: p.2)
      else
        let p := selBest x ys
        (p.1, y :: p.2)

/-- Modelled from the spec: `pop_best()` — "removes and returns the
highest-ordered entry, or indicates empty" (spec section 4.2). -/
def popBest : List Item → Option (Item × List Item)
  | [] => none
  | x :: xs => some (selBest x xs)

/-- Modelled from the spec: `remove(handle)` — "removes an arbitrary
still-present entry … a no-op / reported as not found if the handle was
already removed" (spec section 4.2).  The handle is the entry's channel
id. -/
def queueRemove (q : List Item) (ch : Nat) : List Item :=
  q.eraseP (fun it => it.ch == ch)

/-- Modelled from the spec: `promote(handle, newPriority)` — "updates an
entry's priority in place … promotion takes effect only if the entry is
still queued (graceful no-op otherwise)" (spec sections 4.2, 4.4). -/
def queueUpdate (q : List Item) (ch : Nat) (newPriority : Int) : List Item :=
  q.map (fun it => if it.ch = ch then { it with priority := newPriority } else it)

/-- State of `PriorityLimiter` (priorityRateLimiter.go lines 36-43), plus
the modelled arrival-sequence counter of the queue. -/
structure PriorityLimiter where
  count : Int
  limit : Int
  waitList : List Item
  dynamicPeriod : Option Int
  timeout : Option Int
  nextSeq : Nat
deriving DecidableEq, Repr

/-- Constructor `NewLimiter` (lines 49-62): stores `limit`, applies the options
(`WithDynamicPriority`, `WithTimeout`, modelled as the resolved fields)
and initialises an empty queue.  There is no validation of `limit`. -/
def NewLimiter (limit : Int) (dynamicPeriod timeout : Option Int) : PriorityLimiter :=
  { count := 0, limit := limit, waitList := [], dynamicPeriod := dynamicPeriod,
    timeout := timeout, nextSeq := 0 }

/-- Embeds `PriorityLimiter.proceed` (lines 189-204): fast path increments
`count` when `count < limit`; otherwise a new `Item` with the requested
priority and a fresh `Done` channel is pushed onto the queue (the arrival
sequence is the modelled queue-insertion counter). -/
def PriorityLimiter.proceed (p : PriorityLimiter) (priority : Int) (fresh : Nat) :
    (Bool × Option Item) × PriorityLimiter :=
  if p.count < p.limit then
    ((true, none), { p with count := p.count + 1 })
  else
    let w : Item := { priority := priority, seq := p.nextSeq, ch := fresh }
    ((false, some w), { p with waitList := p.waitList ++ [w], nextSeq := p.nextSeq + 1 })

/-- Embeds `PriorityLimiter.removeWaiter` (lines 178-184): removes `w` from the
queue (`heap.Remove` at `GetIndex w`; the queue's removal is modelled from
the spec as a no-op when the entry is absent), then *unconditionally*
increments `count` and closes `w.Done` — there is no presence check
guarding the increment or the close. -/
def PriorityLimiter.removeWaiter (p : PriorityLimiter) (w : Item) :
    PriorityLimiter × List ChOp :=
  ({ p with waitList := queueRemove p.waitList w.ch, count := p.count + 1 },
   [ChOp.close w.ch])

/-- Embeds `PriorityLimiter.Finish` (lines 208-219): decrements `count`
unconditionally; then, if the queue is non-empty, pops the best entry and
performs `it.Done <- struct{}{}` followed by `close(it.Done)`. -/
def PriorityLimiter.Finish (p : PriorityLimiter) :
    PriorityLimiter × Option Item × List ChOp :=
  let p1 : PriorityLimiter := { p with count := p.count - 1 }
  match popBest p1.waitList with
  | none => (p1, none, [])
  | some (it, rest) =>
      ({ p1 with waitList := rest }, some it, [ChOp.send it.ch, ChOp.close it.ch])

/-- The priority the shared `w.Priority` field currently reads as: the
queued entry's priority when `w` is still queued, else the caller's stale
copy. -/
def PriorityLimiter.curPriority (p : PriorityLimiter) (w : Item) : Int :=
  match p.waitList.find? (fun it => it.ch == w.ch) with
  | some it => it.priority
  | none => w.priority

/-- The `ticker.C` branch of `handleDynamicPriority` (lines 154-160, the
aging-only configuration): takes the lock and, if `w.Priority < High`,
promotes by one level via the queue's `Update`.  The `ctxFired` argument
is the concurrently observable cancellation state at the moment of the
tick; this branch of the source does not consult it (there is no re-check
before the promotion). -/
def PriorityLimiter.handleDynamicPriorityTick (p : PriorityLimiter) (w : Item)
    (ctxFired : Bool) : PriorityLimiter :=
  let cur := p.curPriority w
  if cur < High then { p with waitList := queueUpdate p.waitList w.ch (cur + 1) }
  else p

/-- The `ticker.C` branch of `dynamicPriorityAndTimeout` (lines 130-143,
the aging-plus-timeout configuration): an inner select first re-checks
`ctx.Done()` — if the context has fired, the entry is removed via
`removeWaiter`; otherwise, if `w.Priority < High`, it is promoted by one
level.  Only cancellation is re-checked, not the done channel. -/
def PriorityLimiter.dynamicPriorityAndTimeoutTick (p : PriorityLimiter) (w : Item)
    (ctxFired : Bool) : PriorityLimiter × List ChOp :=
  if ctxFired then p.removeWaiter w
  else
    let cur := p.curPriority w
    if cur < High then
      ({ p with waitList := queueUpdate p.waitList w.ch (cur + 1) }, [])
    else (p, [])

/-! ## Driver for acquire/release scripts (no cancellation, no timeout)

Replays a script of goroutine events against the FIFO gate and tracks
which goroutines are currently inside the protected section.  A goroutine
is identified by its arrival index, which is also used as its waiter
channel id; a waiter popped by `Finish` receives the handoff and enters
the protected section (nothing cancels in these scripts, so every send is
received). -/

/-- A script event: a new goroutine calls `Wait`, or goroutine `g`
(currently inside) calls `Finish`. -/
inductive GoEv where
  | arrive
  | finishCall (g : Nat)
deriving DecidableEq, Repr

/-- Driver state: the gate, the goroutines currently inside the protected
section, and the next arrival index. -/
structure Sim where
  lim : Limiter
  inside : List Nat
  next : Nat
deriving DecidableEq, Repr

/-- One script step. -/
def simStep (s : Sim) : GoEv → Sim
  | GoEv.arrive =>
      let r := s.lim.proceed s.next
      if r.1.1 then { lim := r.2, inside := s.next :: s.inside, next := s.next + 1 }
      else { lim := r.2, inside := s.inside, next := s.next + 1 }
  | GoEv.finishCall g =>
      let r := s.lim.Finish
      let ins := s.inside.erase g
      match r.2.1 with
      | some ch => { s with lim := r.1, inside := ch :: ins }
      | none => { s with lim := r.1, inside := ins }

/-- Replay a script. -/
def simRun (s : Sim) (evs : List GoEv) : Sim := evs.foldl simStep s

/-- The initial driver state over a fresh FIFO gate of capacity `limit`
with no timeout. -/
def simInit (limit : Int) : Sim := { lim := New limit none, inside := [], next := 0 }

/-! ## Iterated fast-path acquisition (for the count lower-bound claims) -/

/-- Holds (`allFastN l n = true`) iff `n` successive `Wait` calls all take the
fast path of the FIFO gate. -/
def allFastN : Limiter → Nat → Bool
  | _, 0 => true
  | l, n + 1 =>
      let r := l.proceed 0
      r.1.1 && allFastN r.2 n

/-- Holds (`pAllFastN p n = true`) iff `n` successive `Wait` calls all take the
fast path of the priority gate. -/
def pAllFastN : PriorityLimiter → Nat → Bool
  | _, 0 => true
  | p, n + 1 =>
      let r := p.proceed Low 0
      r.1.1 && pAllFastN r.2 n

theorem allFastN_of_le : ∀ (n : Nat) (l : Limiter), l.count + (n : Int) ≤ l.limit →
    allFastN l n = true := by
  intro n
  induction n with
  | zero => intro l _; rfl
  | succ n ih =>
      intro l h
      have hlt : l.count < l.limit := by omega
      simp only [allFastN, Limiter.proceed, if_pos hlt, Bool.true_and]
      exact ih _ (by simp; omega)

theorem pAllFastN_of_le : ∀ (n : Nat) (p : PriorityLimiter), p.count + (n : Int) ≤ p.limit →
    pAllFastN p n = true := by
  intro n
  induction n with
  | zero => intro p _; rfl
  | succ n ih =>
      intro p h
      have hlt : p.count < p.limit := by omega
      simp only [pAllFastN, PriorityLimiter.proceed, if_pos hlt, Bool.true_and]
      exact ih _ (by simp; omega)

/-! ## Ordering facts about the queue model -/

theorem better_iff (a b : Item) :
    better a b = true ↔
      b.priority < a.priority ∨ (a.priority = b.priority ∧ a.seq < b.seq) := by
  unfold better
  split_ifs with h1 h2
  · exact iff_of_true rfl (Or.inl h1)
  · exact iff_of_true rfl (Or.inr h2)
  · exact iff_of_false (by simp) (by tauto)

theorem better_eq_false_iff (a b : Item) :
    better a b = false ↔
      ¬ (b.priority < a.priority ∨ (a.priority = b.priority ∧ a.seq < b.seq)) := by
  rw [← better_iff]
  cases h : better a b <;> simp

theorem better_irrefl (a : Item) : better a a = false := by
  rw [better_eq_false_iff]
  omega

theorem not_better_trans {a b c : Item} (h1 : better a b = false)
    (h2 : better b c = false) : better a c = false := by
  rw [better_eq_false_iff] at h1 h2 ⊢
  omega

theorem not_better_of_beaten {x y b : Item} (hxy : better y x = true)
    (hyb : better y b = false) : better x b = false := by
  rw [better_iff] at hxy
  rw [better_eq_false_iff] at hyb ⊢
  omega

/-- Lemma: `selBest` returns a `better`-maximal element, and together with the
rest it is a permutation of the input. -/
theorem selBest_spec : ∀ (xs : List Item) (x : Item),
    (∀ e ∈ x :: xs, better e (selBest x xs).1 = false) ∧
    ((selBest x xs).1 :: (selBest x xs).2).Perm (x :: xs) := by
  intro xs
  induction xs with
  | nil =>
      intro x
      refine ⟨?_, List.Perm.refl _⟩
      intro e he
      simp only [List.mem_singleton] at he
      subst he
      simp only [selBest]
      exact better_irrefl e
  | cons y ys ih =>
      intro x
      simp only [selBest]
      by_cases hxy : better y x = true
      · obtain ⟨ihMax, ihPerm⟩ := ih y
        rw [if_pos hxy]
        constructor
        · intro e he
          rcases List.mem_cons.mp he with he | he
          · subst he
            exact not_better_of_beaten hxy (ihMax y (List.mem_cons_self y ys))
          · exact ihMax e he
        · exact (List.Perm.swap x (selBest y ys).1 (selBest y ys).2).trans (ihPerm.cons x)
      · obtain ⟨ihMax, ihPerm⟩ := ih x
        rw [if_neg hxy]
        rw [Bool.not_eq_true] at hxy
        constructor
        · intro e he
          rcases List.mem_cons.mp he with he | he
          · subst he
            exact ihMax e (List.mem_cons_self e ys)
          · rcases List.mem_cons.mp he with he | he
            · subst he
              exact not_better_trans hxy (ihMax x (List.mem_cons_self x ys))
            · exact ihMax e (List.mem_cons_of_mem x he)
        · exact ((List.Perm.swap y (selBest x ys).1 (selBest x ys).2).trans
            (ihPerm.cons y)).trans (List.Perm.swap x y ys)

theorem selBest_length (xs : List Item) (x : Item) :
    (selBest x xs).2.length = xs.length := by
  have h := (selBest_spec xs x).2.length_eq
  simpa using h

/-- The sequence in which queued entries would be admitted: repeatedly pop
the best entry (`n` is fuel; `n = q.length` exhausts the queue). -/
def admitOrderF : Nat → List Item → List Item
  | 0, _ => []
  | _ + 1, [] => []
  | n + 1, x :: xs => (selBest x xs).1 :: admitOrderF n (selBest x xs).2

/-- Admission order of a whole queue. -/
def admitOrder (q : List Item) : List Item := admitOrderF q.length q

theorem admitOrderF_spec : ∀ (n : Nat) (q : List Item), q.length ≤ n →
    (admitOrderF n q).Perm q ∧
    (admitOrderF n q).Pairwise (fun a b => better b a = false) := by
  intro n
  induction n with
  | zero =>
      intro q h
      have hq : q = [] := List.eq_nil_of_length_eq_zero (Nat.le_zero.mp h)
      subst hq
      exact ⟨List.Perm.refl _, List.Pairwise.nil⟩
  | succ n ih =>
      intro q h
      cases q with
      | nil => exact ⟨List.Perm.refl _, List.Pairwise.nil⟩
      | cons x xs =>
          obtain ⟨sMax, sPerm⟩ := selBest_spec xs x
          have hlen : (selBest x xs).2.length ≤ n := by
            rw [selBest_length]
            simpa using h
          obtain ⟨ihPerm, ihPw⟩ := ih (selBest x xs).2 hlen
          constructor
          · exact (ihPerm.cons (selBest x xs).1).trans sPerm
          · refine List.Pairwise.cons ?_ ihPw
            intro c hc
            have : c ∈ (selBest x xs).1 :: (selBest x xs).2 :=
              List.mem_cons_of_mem _ (ihPerm.mem_iff.mp hc)
            exact sMax c (sPerm.mem_iff.mp this)

/-- The items popped (and fired) by `n` successive `Finish` calls, in
order; stops early if the queue empties. -/
def finishSeq : Nat → PriorityLimiter → List Item
  | 0, _ => []
  | n + 1, p =>
      match p.Finish with
      | (p', some it, _) => it :: finishSeq n p'
      | (_, none, _) => []

theorem finishSeq_eq_admitOrderF : ∀ (n : Nat) (p : PriorityLimiter),
    finishSeq n p = admitOrderF n p.waitList := by
  intro n
  induction n with
  | zero => intro p; rfl
  | succ n ih =>
      intro p
      rcases p with ⟨c, lim, wl, d, t, s⟩
      cases wl with
      | nil => rfl
      | cons x xs =>
          rcases hsel : selBest x xs with ⟨b, r⟩
          simp only [finishSeq, PriorityLimiter.Finish, popBest, hsel, admitOrderF, ih]

/-! ## Claims -/

/-- C1: the claim `0 ≤ count ≤ limit` and "at most `limit` callers
simultaneously admitted" fails on the code.  With `limit = 1` and no
cancellation or timeout: goroutine 0 is admitted on the fast path,
goroutine 1 queues, goroutine 0 finishes (handing its slot to goroutine 1
without re-incrementing `count`), and goroutine 2 then also passes the
fast path — two goroutines are inside a gate of limit 1.  After both
finish, `count = -1`. -/
theorem c1_capacity_bound_fails :
    (simRun (simInit 1) [GoEv.arrive, GoEv.arrive, GoEv.finishCall 0,
        GoEv.arrive]).inside.length = 2 ∧
    (simRun (simInit 1) [GoEv.arrive, GoEv.arrive, GoEv.finishCall 0,
        GoEv.arrive]).lim.limit = 1 ∧
    (simRun (simInit 1) [GoEv.arrive, GoEv.arrive, GoEv.finishCall 0,
        GoEv.arrive, GoEv.finishCall 1, GoEv.finishCall 2]).lim.count = -1 := by
  decide

/-- C9 counterexample: constructing either gate with `limit = 0` does not
fail — it returns an ordinary gate instance, and that instance is usable
(an acquire on it simply queues). -/
theorem c9_counterexample :
    New 0 none = { count := 0, limit := 0, waitList := [], timeout := none } ∧
    NewLimiter 0 none none =
      { count := 0, limit := 0, waitList := [], dynamicPeriod := none,
        timeout := none, nextSeq := 0 } ∧
    (New 0 none).proceed 0 =
      ((false, some 0), { count := 0, limit := 0, waitList := [0], timeout := none }) := by
  decide

/-- C9 amended: neither constructor validates `limit`; for `limit ≤ 0`
both return a gate instance with the given limit, and on such a gate no
acquire ever takes the fast path (every caller queues). -/
theorem c9_no_validation (limit : Int) (h : limit ≤ 0) (t d : Option Int)
    (fresh : Nat) (pr : Int) :
    (New limit t).limit = limit ∧ (New limit t).count = 0 ∧
    (NewLimiter limit d t).limit = limit ∧ (NewLimiter limit d t).count = 0 ∧
    ((New limit t).proceed fresh).1.1 = false ∧
    ((NewLimiter limit d t).proceed pr fresh).1.1 = false := by
  refine ⟨rfl, rfl, rfl, rfl, ?_, ?_⟩
  · have hnot : ¬ ((New limit t).count < (New limit t).limit) := by
      simp [New]; omega
    simp [Limiter.proceed, hnot]
  · have hnot : ¬ ((NewLimiter limit d t).count < (NewLimiter limit d t).limit) := by
      simp [NewLimiter]; omega
    simp [PriorityLimiter.proceed, hnot]

theorem c9_no_validation_witness :
    ((New 0 (some 5)).proceed 7).1.1 = false ∧
    ((NewLimiter 0 none none).proceed Low 7).1.1 = false :=
  ⟨(c9_no_validation 0 (by decide) (some 5) none 7 Low).2.2.2.2.1,
   (c9_no_validation 0 (by decide) none none 7 Low).2.2.2.2.2⟩

/-- C10: `Finish` decrements `count` with no lower-bound guard: on a fresh
gate (count 0, empty wait list) it leaves `count = -1`, after which
`limit + 1` successive acquirers all take the fast path; the decrement is
unconditional in every state of either gate. -/
theorem c10_no_lower_bound (L : Int) (hL : 0 < L) :
    (New L none).Finish.1.count = -1 ∧
    (NewLimiter L none none).Finish.1.count = -1 ∧
    allFastN (New L none).Finish.1 (L + 1).toNat = true ∧
    pAllFastN (NewLimiter L none none).Finish.1 (L + 1).toNat = true ∧
    (∀ l : Limiter, l.Finish.1.count = l.count - 1) ∧
    (∀ p : PriorityLimiter, p.Finish.1.count = p.count - 1) := by
  refine ⟨rfl, rfl, ?_, ?_, ?_, ?_⟩
  · exact allFastN_of_le _ _ (by simp [New, Limiter.Finish]; omega)
  · exact pAllFastN_of_le _ _ (by simp [NewLimiter, PriorityLimiter.Finish, popBest]; omega)
  · intro l
    rcases l with ⟨c, lim, wl, t⟩
    cases wl <;> rfl
  · intro p
    rcases p with ⟨c, lim, wl, d, t, s⟩
    cases wl <;> rfl

theorem c10_no_lower_bound_witness :
    allFastN (New 2 none).Finish.1 ((2 : Int) + 1).toNat = true :=
  (c10_no_lower_bound 2 (by decide)).2.2.1

/-- C2: the claim fails for the priority gate.  Failing input: the only
waiter was already popped by `Finish`, which fired and closed its channel;
the waiter's cancellation path then calls `removeWaiter`, which
nevertheless increments `count` from 1 to 2 (a double release of
capacity) and closes the already-closed channel — a panic under Go
channel semantics.  The FIFO gate's `removeWaiter`, by contrast, really
is a no-op when the entry is absent. -/
theorem c2_remove_after_removed :
    ((({ count := 1, limit := 1, waitList := [], dynamicPeriod := none,
          timeout := none, nextSeq := 1 } : PriorityLimiter).removeWaiter
        { priority := 1, seq := 0, ch := 0 }).1.count = 2 ∧
      runChan 0 true false
        ((({ count := 1, limit := 1, waitList := [], dynamicPeriod := none,
              timeout := none, nextSeq := 1 } : PriorityLimiter).removeWaiter
            { priority := 1, seq := 0, ch := 0 }).2) = ChTerm.panicked) ∧
    (∀ (l : Limiter) (ch : Nat), ch ∉ l.waitList → l.removeWaiter ch = (l, [])) := by
  refine ⟨by decide, ?_⟩
  intro l ch h
  simp [Limiter.removeWaiter, h]

theorem c2_remove_after_removed_witness :
    ({ count := 1, limit := 1, waitList := [5], timeout := none } : Limiter).removeWaiter 0 =
      ({ count := 1, limit := 1, waitList := [5], timeout := none }, []) :=
  c2_remove_after_removed.2 _ 0 (by decide)

/-- C3: the claim fails.  Failing input: FIFO gate with a timeout
configured, one waiter queued on channel 0, and the waiter's context
fires: the `ctx.Done()` branch of `Wait` returns without touching the
gate, so the entry stays in the wait list and its channel is never closed
— the entry's signal has fired zero times and its owner is gone (and a
later `Finish` that pops the entry would block on the send, see C5). -/
theorem c3_signal_fires_zero_times :
    ({ count := 1, limit := 1, waitList := [0], timeout := some 5 } : Limiter).waitResolve 0
        WaitEv.ctxDone =
      ({ count := 1, limit := 1, waitList := [0], timeout := some 5 }, []) := by
  decide

/-- C4: the claim fails in the timeout-configured FIFO configuration.
With `timeout` set and a waiter queued on channel 0, cancellation returns
without any removal (first conjunct), while the timeout branch does
remove (second conjunct); in the timeout-free configuration cancellation
does remove a still-present entry (third conjunct). -/
theorem c4_cancel_removal_paths :
    (({ count := 1, limit := 1, waitList := [0], timeout := some 5 } : Limiter).waitResolve 0
        WaitEv.ctxDone =
      ({ count := 1, limit := 1, waitList := [0], timeout := some 5 }, []) ∧
     ({ count := 1, limit := 1, waitList := [0], timeout := some 5 } : Limiter).waitResolve 0
        WaitEv.timedOut =
      ({ count := 2, limit := 1, waitList := [], timeout := some 5 }, [ChOp.close 0])) ∧
    (∀ (l : Limiter) (ch : Nat), l.timeout = none → ch ∈ l.waitList →
      l.waitResolve ch WaitEv.ctxDone =
        ({ l with waitList := l.waitList.erase ch, count := l.count + 1 },
         [ChOp.close ch])) := by
  refine ⟨by decide, ?_⟩
  intro l ch ht h
  rcases l with ⟨c, lim, wl, t⟩
  cases ht
  simp [Limiter.waitResolve, Limiter.removeWaiter, h]

theorem c4_cancel_removal_paths_witness :
    ({ count := 1, limit := 1, waitList := [0], timeout := none } : Limiter).waitResolve 0
        WaitEv.ctxDone =
      ({ count := 2, limit := 1, waitList := [], timeout := none }, [ChOp.close 0]) :=
  c4_cancel_removal_paths.2
    { count := 1, limit := 1, waitList := [0], timeout := none } 0 rfl (by decide)

/-- C5: the claim fails.  `Finish` fires a popped entry's signal with an
unbuffered channel send (`w.done <- struct{}{}`) before closing it; if
the entry's receiver has abandoned it (reachable via the C4 path:
timeout-configured FIFO gate, queued waiter, context cancelled), the send
has no ready receiver and blocks forever — while `Finish` holds the gate
lock.  The same send-then-close sequence is emitted by the priority
gate's `Finish` for whichever entry it pops. -/
theorem c5_fire_blocks_on_abandoned :
    (({ count := 1, limit := 1, waitList := [0], timeout := some 5 } : Limiter).Finish.2 =
        (some 0, [ChOp.send 0, ChOp.close 0]) ∧
      runChan 0 false false [ChOp.send 0, ChOp.close 0] = ChTerm.blocked) ∧
    (∀ (p : PriorityLimiter) (it : Item) (rest : List Item),
      popBest p.waitList = some (it, rest) →
      p.Finish.2.2 = [ChOp.send it.ch, ChOp.close it.ch] ∧
      runChan it.ch false false p.Finish.2.2 = ChTerm.blocked) := by
  refine ⟨by decide, ?_⟩
  intro p it rest h
  have hops : p.Finish.2.2 = [ChOp.send it.ch, ChOp.close it.ch] := by
    simp [PriorityLimiter.Finish, h]
  refine ⟨hops, ?_⟩
  rw [hops]
  simp [runChan]

/-- Scenario for C6: priority gate with `limit = 1`; one occupant takes
the fast path, then three callers queue with priorities Low, Medium, High
in that arrival order (waiter channels 1, 2, 3). -/
def c6Scenario : PriorityLimiter :=
  ((((NewLimiter 1 none none).proceed High 100).2.proceed Low 1).2.proceed
      Medium 2).2.proceed High 3 |>.2

/-- Tie-break scenario for C6: `limit = 1`, one occupant, then two callers
queue at the same priority (Medium) in arrival order (channels 1, 2). -/
def c6TieScenario : PriorityLimiter :=
  (((NewLimiter 1 none none).proceed Medium 100).2.proceed Medium 1).2.proceed
      Medium 2 |>.2

/-- C6: admissions from repeated `Finish` follow descending priority with
arrival sequence as the sole tie-break.  (1) In general, pulling the whole
queue yields a permutation of it that is sorted: no later-admitted entry
is ordered ahead (`better`) of an earlier-admitted one — so equal
priorities come out in arrival order.  (2) The gate's `Finish` sequence is
exactly this admission order.  (3) Callers enqueued Low, Medium, High are
admitted High, Medium, Low.  (4) Two callers queued at the same priority
are admitted in arrival order. -/
theorem c6_priority_order :
    (∀ q : List Item, (admitOrder q).Perm q ∧
        (admitOrder q).Pairwise (fun a b => better b a = false)) ∧
    (∀ (n : Nat) (p : PriorityLimiter), finishSeq n p = admitOrderF n p.waitList) ∧
    ((finishSeq 3 c6Scenario).map Item.priority = [High, Medium, Low] ∧
      (finishSeq 3 c6Scenario).map Item.ch = [3, 2, 1]) ∧
    ((finishSeq 2 c6TieScenario).map Item.seq = [0, 1] ∧
      (finishSeq 2 c6TieScenario).map Item.ch = [1, 2]) := by
  refine ⟨fun q => admitOrderF_spec q.length q (Nat.le_refl _), finishSeq_eq_admitOrderF,
    by decide, by decide⟩

/-- C7: `Finish` decrements `count` by one in every state of either gate;
when the wait list is non-empty it pops exactly one entry — the front for
the FIFO gate, a `better`-maximal entry for the priority gate (the rest
being a permutation of the remaining queue) — and fires its signal
(send then close), with no other change: `count` is not re-incremented
for the popped entry, and the other entries stay. -/
theorem c7_release_handoff (l : Limiter) (p : PriorityLimiter) :
    l.Finish.1.count = l.count - 1 ∧
    p.Finish.1.count = p.count - 1 ∧
    (∀ ch rest, l.waitList = ch :: rest →
      l.Finish = ({ l with count := l.count - 1, waitList := rest },
        some ch, [ChOp.send ch, ChOp.close ch])) ∧
    (l.waitList = [] → l.Finish = ({ l with count := l.count - 1 }, none, [])) ∧
    (∀ it rest, popBest p.waitList = some (it, rest) →
      (∀ e ∈ p.waitList, better e it = false) ∧
      (it :: rest).Perm p.waitList ∧
      p.Finish = ({ p with count := p.count - 1, waitList := rest },
        some it, [ChOp.send it.ch, ChOp.close it.ch])) ∧
    (p.waitList = [] → p.Finish = ({ p with count := p.count - 1 }, none, [])) := by
  refine ⟨?_, ?_, ?_, ?_, ?_, ?_⟩
  · rcases l with ⟨c, lim, wl, t⟩
    cases wl <;> rfl
  · rcases p with ⟨c, lim, wl, d, t, s⟩
    cases wl <;> rfl
  · intro ch rest h
    rcases l with ⟨c, lim, wl, t⟩
    cases h
    rfl
  · intro h
    rcases l with ⟨c, lim, wl, t⟩
    cases h
    rfl
  · intro it rest h
    rcases p with ⟨c, lim, wl, d, t, s⟩
    cases wl with
    | nil => exact absurd h (by simp [popBest])
    | cons x xs =>
        have hsel : selBest x xs = (it, rest) := by
          simpa [popBest] using h
        obtain ⟨sMax, sPerm⟩ := selBest_spec xs x
        rw [hsel] at sMax sPerm
        refine ⟨sMax, sPerm, ?_⟩
        simp only [PriorityLimiter.Finish, popBest, hsel]
  · intro h
    rcases p with ⟨c, lim, wl, d, t, s⟩
    cases h
    rfl

theorem c7_release_handoff_witness :
    ({ count := 2, limit := 2, waitList := [7], timeout := none } : Limiter).Finish =
      ({ count := 1, limit := 2, waitList := [], timeout := none },
        some 7, [ChOp.send 7, ChOp.close 7]) ∧
    ({ count := 1, limit := 1,
       waitList := [{ priority := 1, seq := 0, ch := 4 }], dynamicPeriod := none,
       timeout := none, nextSeq := 1 } : PriorityLimiter).Finish =
      ({ count := 0, limit := 1, waitList := [], dynamicPeriod := none,
         timeout := none, nextSeq := 1 },
        some { priority := 1, seq := 0, ch := 4 },
        [ChOp.send 4, ChOp.close 4]) :=
  ⟨(c7_release_handoff { count := 2, limit := 2, waitList := [7], timeout := none }
      { count := 1, limit := 1, waitList := [{ priority := 1, seq := 0, ch := 4 }],
        dynamicPeriod := none, timeout := none, nextSeq := 1 }).2.2.1 7 [] rfl,
   ((c7_release_handoff { count := 2, limit := 2, waitList := [7], timeout := none }
      { count := 1, limit := 1, waitList := [{ priority := 1, seq := 0, ch := 4 }],
        dynamicPeriod := none, timeout := none, nextSeq := 1 }).2.2.2.2.1
      { priority := 1, seq := 0, ch := 4 } [] (by decide)).2.2⟩

theorem c5_fire_blocks_on_abandoned_witness :
    ({ count := 1, limit := 1,
       waitList := [{ priority := 2, seq := 0, ch := 3 }], dynamicPeriod := none,
       timeout := none, nextSeq := 1 } : PriorityLimiter).Finish.2.2 =
      [ChOp.send 3, ChOp.close 3] ∧
    runChan 3 false false
      ({ count := 1, limit := 1,
         waitList := [{ priority := 2, seq := 0, ch := 3 }], dynamicPeriod := none,
         timeout := none, nextSeq := 1 } : PriorityLimiter).Finish.2.2 = ChTerm.blocked :=
  c5_fire_blocks_on_abandoned.2 _ { priority := 2, seq := 0, ch := 3 } [] (by decide)

theorem find?_queueUpdate (q : List Item) (ch : Nat) (v : Int) :
    (queueUpdate q ch v).find? (fun e => e.ch == ch) =
      (q.find? (fun e => e.ch == ch)).map (fun it => { it with priority := v }) := by
  induction q with
  | nil => rfl
  | cons a q ih =>
      simp only [queueUpdate] at ih ⊢
      by_cases h : a.ch = ch
      · rw [List.map_cons, if_pos h, List.find?_cons_of_pos _ (by simp [h]),
          List.find?_cons_of_pos _ (by simp [h]), Option.map_some']
      · rw [List.map_cons, if_neg h, List.find?_cons_of_neg _ (by simp [h]),
          List.find?_cons_of_neg _ (by simp [h]), ih]

/-- C8 counterexample: in the aging-only configuration the tick branch
promotes without re-checking cancellation — with the context already
fired, the tick still promotes the queued entry from Low to Medium. -/
theorem c8_counterexample :
    ({ count := 1, limit := 1, waitList := [{ priority := Low, seq := 0, ch := 0 }],
        dynamicPeriod := some 5, timeout := none, nextSeq := 1 }
          : PriorityLimiter).handleDynamicPriorityTick
        { priority := Low, seq := 0, ch := 0 } true =
      { count := 1, limit := 1, waitList := [{ priority := Medium, seq := 0, ch := 0 }],
        dynamicPeriod := some 5, timeout := none, nextSeq := 1 } := by
  decide

/-- C8 amended: the aging-only tick applies its promotion without any
re-check (its outcome is independent of the cancellation state), while
the aging-plus-timeout tick re-checks only cancellation (on a fired
context it removes the waiter instead of promoting).  In both
configurations a tick promotes the entry exactly one level and only when
its current priority is strictly below High, so a queue whose priorities
are at most High keeps that bound. -/
theorem c8_promotion_rules (p : PriorityLimiter) (w : Item) (ctx : Bool) (it : Item)
    (hfind : p.waitList.find? (fun e => e.ch == w.ch) = some it) :
    (p.handleDynamicPriorityTick w ctx = p.handleDynamicPriorityTick w true) ∧
    (p.dynamicPriorityAndTimeoutTick w true = p.removeWaiter w) ∧
    (it.priority < High →
      ((p.handleDynamicPriorityTick w ctx).waitList.find? (fun e => e.ch == w.ch) =
          some { it with priority := it.priority + 1 } ∧
        (p.dynamicPriorityAndTimeoutTick w false).1.waitList.find?
            (fun e => e.ch == w.ch) = some { it with priority := it.priority + 1 })) ∧
    (High ≤ it.priority →
      p.handleDynamicPriorityTick w ctx = p ∧
      p.dynamicPriorityAndTimeoutTick w false = (p, [])) ∧
    ((∀ e ∈ p.waitList, e.priority ≤ High) →
      ∀ e ∈ (p.handleDynamicPriorityTick w ctx).waitList, e.priority ≤ High) := by
  have hcur : p.curPriority w = it.priority := by
    simp [PriorityLimiter.curPriority, hfind]
  refine ⟨rfl, rfl, ?_, ?_, ?_⟩
  · intro hlt
    have h1 : (p.handleDynamicPriorityTick w ctx).waitList =
        queueUpdate p.waitList w.ch (it.priority + 1) := by
      simp [PriorityLimiter.handleDynamicPriorityTick, hcur, hlt]
    have h2 : (p.dynamicPriorityAndTimeoutTick w false).1.waitList =
        queueUpdate p.waitList w.ch (it.priority + 1) := by
      simp [PriorityLimiter.dynamicPriorityAndTimeoutTick, hcur, hlt]
    rw [h1, h2, find?_queueUpdate, hfind, Option.map_some']
    exact ⟨rfl, rfl⟩
  · intro hge
    have hnot : ¬ p.curPriority w < High := by omega
    constructor
    · simp [PriorityLimiter.handleDynamicPriorityTick, hnot]
    · simp [PriorityLimiter.dynamicPriorityAndTimeoutTick, hnot]
  · intro hall e he
    by_cases hlt : p.curPriority w < High
    · rw [show (p.handleDynamicPriorityTick w ctx).waitList =
          queueUpdate p.waitList w.ch (p.curPriority w + 1) by
            simp [PriorityLimiter.handleDynamicPriorityTick, hlt]] at he
      simp only [queueUpdate, List.mem_map] at he
      obtain ⟨a, ha, hae⟩ := he
      by_cases hch : a.ch = w.ch
      · rw [if_pos hch] at hae
        subst hae
        simp only []
        omega
      · rw [if_neg hch] at hae
        subst hae
        exact hall a ha
    · rw [show (p.handleDynamicPriorityTick w ctx).waitList = p.waitList by
          simp [PriorityLimiter.handleDynamicPriorityTick, hlt]] at he
      exact hall e he

theorem c8_promotion_rules_witness :
    (({ count := 1, limit := 1,
        waitList := [{ priority := Low, seq := 0, ch := 0 }], dynamicPeriod := some 5,
        timeout := some 9, nextSeq := 1 } : PriorityLimiter).handleDynamicPriorityTick
          { priority := Low, seq := 0, ch := 0 } false).waitList.find?
        (fun e => e.ch == 0) = some { priority := Medium, seq := 0, ch := 0 } :=
  ((c8_promotion_rules
      { count := 1, limit := 1, waitList := [{ priority := Low, seq := 0, ch := 0 }],
        dynamicPeriod := some 5, timeout := some 9, nextSeq := 1 }
      { priority := Low, seq := 0, ch := 0 } false
      { priority := Low, seq := 0, ch := 0 } (by decide)).2.2.1 (by decide)).1

end ConcLim
